import Mathlib

/-!
Shallow embedding of the ESLint rule `promise-constructor-exactly-one-callback`
(file `rules/promise-constructor-exactly-one-callback.js`): the execution-path
enumerator (`findAllExecutionPaths` / `analyzeBlock` and the per-construct
analyzers), the sentinel-call counter (`countCallbacksInPath` /
`countCallbacksInStatement`), and the per-path classification performed by
`analyzeExecutionPaths`.

The statement/expression trees are modelled after the ESTree node shapes the
rule inspects (`stmt.type` dispatch); node kinds the rule does not distinguish
are collapsed into `otherS` / `otherE` carrying their child nodes, exactly as
the generic `traverse` walk sees them.
-/

set_option maxHeartbeats 1000000

namespace PromisePaths

/-- The `terminated` field of the rule's path records: the JS code stores the
string values `'no'`, `'yes'` (return) and `'thrown'` (throw). -/
inductive Terminated where
  | no
  | yes
  | thrown
  deriving BEq, DecidableEq, Repr

mutual
/-- Expression nodes, as the rule's generic `traverse` walk sees them:
identifiers, call expressions (callee plus arguments), function literals
(`FunctionExpression` / `ArrowFunctionExpression` with a block body; the
parameter patterns are identifiers and can never contain a call, so only the
names are kept), and any other expression kind collapsed to its child nodes. -/
inductive Expr where
  | ident (name : String)
  | call (callee : Expr) (args : List Expr)
  | funLit (params : List String) (body : List Stmt)
  | otherE (children : List Expr)

/-- Statement nodes, covering exactly the `stmt.type` cases `analyzeBlock`
dispatches on (`IfStatement`, `TryStatement`, `SwitchStatement`, the three
loop kinds collapsed to `loopS`, `ReturnStatement`, `ThrowStatement`) plus the
kinds that fall into its final `else` branch: expression statements, `break`,
nested block statements, and any other statement collapsed to its child
expressions. For `tryS` the lists are the statement lists the JS accesses as
`tryStmt.block.body`, `tryStmt.handler.body.body` and `tryStmt.finalizer.body`;
`loopS`'s `header` holds the loop-header expressions (init/test/update), which
the enumerator ignores but the counter walk still visits. -/
inductive Stmt where
  | exprStmt (e : Expr)
  | ifS (test : Expr) (consequent : Stmt) (alternate : Option Stmt)
  | tryS (block : List Stmt) (handler : Option (List Stmt)) (finalizer : Option (List Stmt))
  | switchS (cases : List Case)
  | loopS (header : List Expr) (body : Stmt)
  | returnS (argument : Option Expr)
  | throwS (argument : Expr)
  | breakS
  | blockS (body : List Stmt)
  | otherS (children : List Expr)

/-- A `SwitchCase`: `test` is `none` for the `default` case (the JS checks
`caseNode.test === null`), `consequent` is the case's statement list. -/
inductive Case where
  | mk (test : Option Expr) (consequent : List Stmt)
end

/-- A node that can appear on a path or as a path's `endNode` anchor: a
statement, an expression (the whole non-block callback body), or a switch
case (the anchor of an empty case's path). -/
inductive Node where
  | ofStmt (s : Stmt)
  | ofExpr (e : Expr)
  | ofCase (c : Case)

/-- The path records built by the enumerator: `{ statements, endNode,
terminated }`. The informational flags the JS also stores on some records
(`continuesAfterIf`, `isEmpty`, `isImplicitDefault`, `isLoopSkip`) are never
read by any code and are dropped. In every record the JS creates, `endNode`
is set, so the field is total here. -/
structure ExecutionPath where
  statements : List Node
  endNode : Node
  terminated : Terminated

/-- The name test of the counter: `callName === resolveParam || callName ===
rejectParam`. -/
def isTargetName (callName resolveParam rejectParam : String) : Bool :=
  callName == resolveParam || callName == rejectParam

mutual
/-- The generic `traverse` of `countCallbacksInStatement`, on an expression:
count one for each `CallExpression` whose callee is an `Identifier` naming one
of the two targets, and recurse into every child node (including the bodies of
nested function literals, which the walk does not skip). -/
def traverseExpr (resolveParam rejectParam : String) : Expr → Nat
  | .ident _ => 0
  | .call callee args =>
      (match callee with
       | .ident callName => if isTargetName callName resolveParam rejectParam then 1 else 0
       | _ => 0)
      + traverseExpr resolveParam rejectParam callee
      + traverseExprList resolveParam rejectParam args
  | .funLit _ body => traverseStmtList resolveParam rejectParam body
  | .otherE children => traverseExprList resolveParam rejectParam children

/-- `traverse` over an array-valued child (expression list). -/
def traverseExprList (resolveParam rejectParam : String) : List Expr → Nat
  | [] => 0
  | e :: es => traverseExpr resolveParam rejectParam e + traverseExprList resolveParam rejectParam es

/-- The generic `traverse`, on a statement: recurse into every child node. -/
def traverseStmt (resolveParam rejectParam : String) : Stmt → Nat
  | .exprStmt e => traverseExpr resolveParam rejectParam e
  | .ifS test consequent alternate =>
      traverseExpr resolveParam rejectParam test
      + traverseStmt resolveParam rejectParam consequent
      + traverseOptStmt resolveParam rejectParam alternate
  | .tryS blk handler finalizer =>
      traverseStmtList resolveParam rejectParam blk
      + traverseOptStmtList resolveParam rejectParam handler
      + traverseOptStmtList resolveParam rejectParam finalizer
  | .switchS cases => traverseCaseList resolveParam rejectParam cases
  | .loopS header body =>
      traverseExprList resolveParam rejectParam header + traverseStmt resolveParam rejectParam body
  | .returnS argument => traverseOptExpr resolveParam rejectParam argument
  | .throwS argument => traverseExpr resolveParam rejectParam argument
  | .breakS => 0
  | .blockS body => traverseStmtList resolveParam rejectParam body
  | .otherS children => traverseExprList resolveParam rejectParam children

/-- `traverse` over a statement list. -/
def traverseStmtList (resolveParam rejectParam : String) : List Stmt → Nat
  | [] => 0
  | s :: ss => traverseStmt resolveParam rejectParam s + traverseStmtList resolveParam rejectParam ss

/-- `traverse` over an optional statement child (absent child: no nodes). -/
def traverseOptStmt (resolveParam rejectParam : String) : Option Stmt → Nat
  | none => 0
  | some s => traverseStmt resolveParam rejectParam s

/-- `traverse` over an optional statement-list child. -/
def traverseOptStmtList (resolveParam rejectParam : String) : Option (List Stmt) → Nat
  | none => 0
  | some ss => traverseStmtList resolveParam rejectParam ss

/-- `traverse` over an optional expression child. -/
def traverseOptExpr (resolveParam rejectParam : String) : Option Expr → Nat
  | none => 0
  | some e => traverseExpr resolveParam rejectParam e

/-- `traverse` over a switch case (test expression, then consequent list). -/
def traverseCase (resolveParam rejectParam : String) : Case → Nat
  | .mk test consequent =>
      traverseOptExpr resolveParam rejectParam test
      + traverseStmtList resolveParam rejectParam consequent

/-- `traverse` over a case list. -/
def traverseCaseList (resolveParam rejectParam : String) : List Case → Nat
  | [] => 0
  | c :: cs => traverseCase resolveParam rejectParam c + traverseCaseList resolveParam rejectParam cs
end

/-- `countCallbacksInStatement(stmt, resolveParam, rejectParam)`: run the
generic traversal from the given node. -/
def countCallbacksInStatement (stmt : Node) (resolveParam rejectParam : String) : Nat :=
  match stmt with
  | .ofStmt s => traverseStmt resolveParam rejectParam s
  | .ofExpr e => traverseExpr resolveParam rejectParam e
  | .ofCase c => traverseCase resolveParam rejectParam c

/-- `countCallbacksInPath(path, resolveParam, rejectParam)`: sum the statement
counts along the path (`count += countCallbacksInStatement(stmt, ...)`). -/
def countCallbacksInPath (path : ExecutionPath) (resolveParam rejectParam : String) : Nat :=
  path.statements.foldl (fun count stmt => count + countCallbacksInStatement stmt resolveParam rejectParam) 0

/-- `consequent.type === 'BlockStatement' ? consequent.body : [consequent]`:
the statement list a single-statement branch is normalised to before being fed
to `analyzeBlock`. -/
def toStmtList (s : Stmt) : List Stmt :=
  match s with
  | .blockS body => body
  | s => [s]

/-- `caseNode.test === null`: the default-case test of
`analyzeSwitchStatement`. -/
def isDefaultCase : Case → Bool
  | .mk none _ => true
  | .mk (some _) _ => false

mutual
/-- Statement weight used as the termination measure of the enumerator. -/
def stmtSize : Stmt → Nat
  | .exprStmt _ => 1
  | .ifS _ consequent alternate => 1 + stmtSize consequent + optStmtSize alternate
  | .tryS blk handler finalizer =>
      1 + stmtListSize blk + optStmtListSize handler + optStmtListSize finalizer
  | .switchS cases => 1 + caseListSize cases
  | .loopS _ body => 1 + stmtSize body
  | .returnS _ => 1
  | .throwS _ => 1
  | .breakS => 1
  | .blockS body => 1 + stmtListSize body
  | .otherS _ => 1

/-- Total weight of a statement list. -/
def stmtListSize : List Stmt → Nat
  | [] => 0
  | s :: ss => stmtSize s + stmtListSize ss

/-- Weight of an optional statement. -/
def optStmtSize : Option Stmt → Nat
  | none => 0
  | some s => stmtSize s

/-- Weight of an optional statement list. -/
def optStmtListSize : Option (List Stmt) → Nat
  | none => 0
  | some ss => stmtListSize ss

/-- Weight of a switch case. -/
def caseSize : Case → Nat
  | .mk _ consequent => 1 + stmtListSize consequent

/-- Total weight of a case list. -/
def caseListSize : List Case → Nat
  | [] => 0
  | c :: cs => caseSize c + caseListSize cs
end

theorem stmtSize_pos (s : Stmt) : 1 ≤ stmtSize s := by
  cases s <;> simp [stmtSize] <;> omega

theorem stmtListSize_toStmtList_le (s : Stmt) : stmtListSize (toStmtList s) ≤ stmtSize s := by
  cases s <;> simp [toStmtList, stmtSize, stmtListSize]

mutual
/-- `analyzeBlock(statements, currentPath)`: walk the statement list left to
right accumulating a working path.  `IfStatement`, `TryStatement`,
`SwitchStatement` and the three loop kinds hand off to their analyzers and
then run the continuation loop (`continuePaths`) on the remaining statements;
`ReturnStatement` / `ThrowStatement` close the single path built so far and
drop the remainder of the list; the JS `else` branch (covering expression
statements, `break`, nested blocks and all other statement kinds) pushes the
statement onto the working path and continues; at the end of the list one
falls-through path is closed only when the working path is non-empty
(`workingPath.length > 0`, with `endNode` its last element). -/
def analyzeBlock (statements : List Stmt) (currentPath : List Node) : List ExecutionPath :=
  match statements with
  | [] =>
      match currentPath.getLast? with
      | some last => [{ statements := currentPath, endNode := last, terminated := .no }]
      | none => []
  | stmt :: rest =>
      match stmt with
      | .ifS t c a => continuePaths rest (analyzeIfStatement (.ifS t c a) currentPath)
      | .tryS b h f => continuePaths rest (analyzeTryStatement (.tryS b h f) currentPath)
      | .switchS cs => continuePaths rest (analyzeSwitchStatement (.switchS cs) currentPath)
      | .loopS hd bd => continuePaths rest (analyzeLoopStatement (.loopS hd bd) currentPath)
      | .returnS arg =>
          [{ statements := currentPath ++ [.ofStmt (.returnS arg)],
             endNode := .ofStmt (.returnS arg), terminated := .yes }]
      | .throwS arg =>
          [{ statements := currentPath ++ [.ofStmt (.throwS arg)],
             endNode := .ofStmt (.throwS arg), terminated := .thrown }]
      | .exprStmt e => analyzeBlock rest (currentPath ++ [.ofStmt (.exprStmt e)])
      | .breakS => analyzeBlock rest (currentPath ++ [.ofStmt .breakS])
      | .blockS b => analyzeBlock rest (currentPath ++ [.ofStmt (.blockS b)])
      | .otherS ch => analyzeBlock rest (currentPath ++ [.ofStmt (.otherS ch)])
termination_by 2 * stmtListSize statements + 1
decreasing_by all_goals (simp [stmtSize, stmtListSize]; try omega)

/-- The continuation loop repeated verbatim after each branching construct in
`analyzeBlock`: a sub-path continues into the remaining statements only when
`path.terminated === 'no' && remainingStatements.length > 0`; otherwise it is
kept as-is. -/
def continuePaths (rest : List Stmt) (paths : List ExecutionPath) : List ExecutionPath :=
  paths.flatMap (fun path =>
    if path.terminated = .no ∧ rest.isEmpty = false then
      analyzeBlock rest path.statements
    else [path])
termination_by 2 * stmtListSize rest + 2
decreasing_by simp

/-- `analyzeIfStatement(ifStmt, currentPath)`: analyze the consequent and the
alternate seeded with the current path; with no alternate, synthesize the
single empty continuing path anchored at the `If` itself.  (Only ever invoked
on `If` nodes; other kinds yield no paths.) -/
def analyzeIfStatement (ifStmt : Stmt) (currentPath : List Node) : List ExecutionPath :=
  match ifStmt with
  | .ifS test consequent alternate =>
      let thenPaths := analyzeBlock (toStmtList consequent) currentPath
      let elsePaths :=
        match alternate with
        | some alt => analyzeBlock (toStmtList alt) currentPath
        | none =>
            [{ statements := currentPath, endNode := .ofStmt (.ifS test consequent alternate),
               terminated := .no }]
      thenPaths ++ elsePaths
  | _ => []
termination_by 2 * stmtSize ifStmt
decreasing_by
  · have := stmtListSize_toStmtList_le consequent
    simp [stmtSize, optStmtSize]; omega
  · have := stmtListSize_toStmtList_le alt
    simp [stmtSize, optStmtSize]; omega

/-- `analyzeTryStatement(tryStmt, currentPath)`: analyze the try block and, if
present, the catch block, both seeded with the current path (catch paths are
pushed first).  With a finalizer, every try sub-path — terminated or not (the
JS if/else performs the same call in both branches) — is replaced by the
finally block re-analyzed seeded with that sub-path's statements; catch paths
are pushed unmodified. -/
def analyzeTryStatement (tryStmt : Stmt) (currentPath : List Node) : List ExecutionPath :=
  match tryStmt with
  | .tryS blk handler finalizer =>
      let tryPaths := analyzeBlock blk currentPath
      let catchPaths :=
        match handler with
        | some catchStatements => analyzeBlock catchStatements currentPath
        | none => []
      match finalizer with
      | some finallyStatements =>
          catchPaths ++ tryPaths.flatMap (fun tryPath =>
            if tryPath.terminated = .no then
              analyzeBlock finallyStatements tryPath.statements
            else
              analyzeBlock finallyStatements tryPath.statements)
      | none => catchPaths ++ tryPaths
  | _ => []
termination_by 2 * stmtSize tryStmt
decreasing_by all_goals (simp [stmtSize, optStmtListSize]; omega)

/-- The per-case loop of `analyzeSwitchStatement`: a case with a non-empty
consequent is analyzed seeded with the current path; an empty case yields one
falls-through path anchored at that case. -/
def analyzeCaseList (cases : List Case) (currentPath : List Node) : List ExecutionPath :=
  match cases with
  | [] => []
  | .mk t consequent :: cs =>
      (if consequent.isEmpty then
        [{ statements := currentPath, endNode := .ofCase (.mk t consequent), terminated := .no }]
      else
        analyzeBlock consequent currentPath)
      ++ analyzeCaseList cs currentPath
termination_by 2 * caseListSize cases
decreasing_by all_goals (simp [caseSize, caseListSize]; try omega)

/-- `analyzeSwitchStatement(switchStmt, currentPath)`: the per-case paths
plus, when no case is a default, one implicit falls-through path anchored at
the switch. -/
def analyzeSwitchStatement (switchStmt : Stmt) (currentPath : List Node) : List ExecutionPath :=
  match switchStmt with
  | .switchS cases =>
      let paths := analyzeCaseList cases currentPath
      if cases.any isDefaultCase then paths
      else
        paths ++ [{ statements := currentPath, endNode := .ofStmt (.switchS cases),
                    terminated := .no }]
  | _ => []
termination_by 2 * stmtSize switchStmt
decreasing_by simp [stmtSize]; try omega

/-- `analyzeLoopStatement(loopStmt, currentPath)`: the loop-body paths seeded
with the current path, plus one path where the loop body does not run,
anchored at the loop. -/
def analyzeLoopStatement (loopStmt : Stmt) (currentPath : List Node) : List ExecutionPath :=
  match loopStmt with
  | .loopS header body =>
      analyzeBlock (toStmtList body) currentPath
      ++ [{ statements := currentPath, endNode := .ofStmt (.loopS header body), terminated := .no }]
  | _ => []
termination_by 2 * stmtSize loopStmt
decreasing_by
  have := stmtListSize_toStmtList_le body
  simp [stmtSize]; omega
end

/-- The executor body handed to the analyzer: either a `BlockStatement` or a
single non-block node (the implicit-return body of an arrow function). -/
inductive FnBody where
  | block (body : List Stmt)
  | expr (e : Expr)

/-- `findAllExecutionPaths(callbackBody)`: a non-block body is the single
trivial path `{ statements: [callbackBody], endNode: callbackBody,
terminated: 'no' }`; a block body is analyzed by `analyzeBlock(body, [])`. -/
def findAllExecutionPaths (callbackBody : FnBody) : List ExecutionPath :=
  match callbackBody with
  | .expr e => [{ statements := [.ofExpr e], endNode := .ofExpr e, terminated := .no }]
  | .block body => analyzeBlock body []

/-- The two diagnostic ids `analyzeExecutionPaths` can emit per path. -/
inductive MessageId where
  | noCallback
  | multipleCallbacks
  deriving DecidableEq

/-- An entry of the `issues` array: the anchor node and the message id.  (In
the JS, the anchor is `path.endNode || callbackBody`; every path record the
enumerator builds carries an `endNode`, so the fallback never fires.) -/
structure Issue where
  node : Node
  messageId : MessageId

/-- The body of the per-path loop of `analyzeExecutionPaths`: count the
callbacks on the path; `count === 0` pushes `noCallback`, `count > 1` pushes
`multipleCallbacks`, and exactly one callback pushes nothing. -/
def pathIssue (path : ExecutionPath) (resolveParam rejectParam : String) : Option Issue :=
  let callbackCount := countCallbacksInPath path resolveParam rejectParam
  if callbackCount = 0 then
    some { node := path.endNode, messageId := .noCallback }
  else if callbackCount > 1 then
    some { node := path.endNode, messageId := .multipleCallbacks }
  else
    none

/-- `analyzeExecutionPaths(callbackBody, resolveParam, rejectParam)`: the
issues collected over all enumerated paths, in path order. -/
def analyzeExecutionPaths (callbackBody : FnBody) (resolveParam rejectParam : String) :
    List Issue :=
  (findAllExecutionPaths callbackBody).filterMap
    (fun path => pathIssue path resolveParam rejectParam)

/-- The spec's verdict kinds for a single path. -/
inductive VerdictKind where
  | OK
  | NoCallback
  | MultipleCallbacks
  deriving DecidableEq

/-- The classification implicit in `analyzeExecutionPaths`' branches, as a
function of the sentinel count alone. -/
def verdictOfCount (callbackCount : Nat) : VerdictKind :=
  if callbackCount = 0 then .NoCallback
  else if callbackCount > 1 then .MultipleCallbacks
  else .OK

/-- The verdict of one enumerated path. -/
def verdictOf (path : ExecutionPath) (resolveParam rejectParam : String) : VerdictKind :=
  verdictOfCount (countCallbacksInPath path resolveParam rejectParam)

/-- One verdict per enumerated path, in path order. -/
def verdicts (callbackBody : FnBody) (resolveParam rejectParam : String) : List VerdictKind :=
  (findAllExecutionPaths callbackBody).map
    (fun path => verdictOf path resolveParam rejectParam)

/-- Statement kinds handled by the final `else` branch of `analyzeBlock`'s
dispatch (everything that is not an `If`/`Try`/`Switch`/loop/`Return`/`Throw`):
such a statement is pushed onto the working path and enumeration continues. -/
def isPlainStmt : Stmt → Bool
  | .exprStmt _ => true
  | .breakS => true
  | .blockS _ => true
  | .otherS _ => true
  | _ => false

/-- Statement kinds that do not fork the enumeration (everything except
`If`/`Try`/`Switch`/loop): plain statements plus `Return`/`Throw`. -/
def isNonBranching : Stmt → Bool
  | .ifS _ _ _ => false
  | .tryS _ _ _ => false
  | .switchS _ => false
  | .loopS _ _ => false
  | _ => true

/-- The consequent statement list of a switch case. -/
def consequentOf : Case → List Stmt
  | .mk _ consequent => consequent

/-- An expression statement calling a bare identifier with no arguments — the
shape of the sentinel calls in the spec's example bodies. -/
def callTo (name : String) : Stmt := .exprStmt (.call (.ident name) [])

/-- Example body `resolve('x'); reject(new Error());` of the double-call
property (arguments elided; they contain no sentinel calls). -/
def doubleCallBody : FnBody := .block [callTo "resolve", callTo "reject"]

/-- Example body `if (c) { resolve(); return; } reject();` of the
early-return property. -/
def earlyReturnBody : FnBody :=
  .block [.ifS (.ident "c") (.blockS [callTo "resolve", .returnS none]) none, callTo "reject"]

/-- Example body `if (cond) { resolve() }` of the missing-else property. -/
def missingElseBody : FnBody :=
  .block [.ifS (.ident "cond") (.blockS [callTo "resolve"]) none]

/-- Example body `try { resolve() } catch (e) { reject() } finally
{ resolve() }` of the finally-join property. -/
def tryFinallyBody : FnBody :=
  .block [.tryS [callTo "resolve"] (some [callTo "reject"]) (some [callTo "resolve"])]

/-- Example body `try { resolve(); return; } finally { cleanup() }`: a try
path terminated by `return`, with a finalizer present. -/
def returnFinallyBody : FnBody :=
  .block [.tryS [callTo "resolve", .returnS none] none (some [callTo "cleanup"])]

/-- Example body `switch (x) { case 'a': resolve(); break; } reject();`: a
case body ending in `break`, with a statement following the switch. -/
def switchBreakBody : FnBody :=
  .block [.switchS [.mk (some (.ident "x")) [callTo "resolve", .breakS]], callTo "reject"]

/-- Example body `return resolve(x);`: a sentinel call inside the argument of
the terminating return. -/
def returnResolveBody : FnBody :=
  .block [.returnS (some (.call (.ident "resolve") [.otherE []]))]

/-- Example statement `setTimeout(function () { resolve() });`: a sentinel
call inside a nested function literal. -/
def nestedFunStmt : Stmt :=
  .exprStmt (.call (.ident "setTimeout") [.funLit [] [callTo "resolve"]])

/-- The if-statement `if (c) { resolve() }` used to build pathological
sequences of branching statements. -/
def ifA : Stmt := .ifS (.ident "c") (.blockS [callTo "resolve"]) none

theorem analyzeBlock_plain_cons (s : Stmt) (rest : List Stmt) (cur : List Node)
    (hs : isPlainStmt s = true) :
    analyzeBlock (s :: rest) cur = analyzeBlock rest (cur ++ [.ofStmt s]) := by
  cases s <;> simp_all [isPlainStmt, analyzeBlock]

theorem analyzeBlock_return_cons (arg : Option Expr) (rest : List Stmt) (cur : List Node) :
    analyzeBlock (.returnS arg :: rest) cur =
      [{ statements := cur ++ [.ofStmt (.returnS arg)],
         endNode := .ofStmt (.returnS arg), terminated := .yes }] := by
  simp [analyzeBlock]

theorem analyzeBlock_throw_cons (arg : Expr) (rest : List Stmt) (cur : List Node) :
    analyzeBlock (.throwS arg :: rest) cur =
      [{ statements := cur ++ [.ofStmt (.throwS arg)],
         endNode := .ofStmt (.throwS arg), terminated := .thrown }] := by
  simp [analyzeBlock]

/-- Claim C1 (amended): with both a handler and a finalizer present, only the
try-body sub-paths have the finally statements appended (terminated or not);
catch-handler sub-paths are emitted without the finally join, catch paths
first.  For `try { resolve() } catch (e) { reject() } finally { resolve() }`
the catch-path keeps count 1 (`OK`) and only the try-path reaches count 2
(`MultipleCallbacks`); for `try { resolve(); return; } finally { cleanup() }`
the finally statements are appended even after the early return. -/
theorem C1_finally_joins_only_try_paths :
    (∀ (tryBlock handlerBody finallyBody : List Stmt) (cur : List Node),
      analyzeTryStatement (.tryS tryBlock (some handlerBody) (some finallyBody)) cur =
        analyzeBlock handlerBody cur
          ++ (analyzeBlock tryBlock cur).flatMap
              (fun tryPath => analyzeBlock finallyBody tryPath.statements)) ∧
    findAllExecutionPaths tryFinallyBody =
      [{ statements := [.ofStmt (callTo "reject")], endNode := .ofStmt (callTo "reject"),
         terminated := .no },
       { statements := [.ofStmt (callTo "resolve"), .ofStmt (callTo "resolve")],
         endNode := .ofStmt (callTo "resolve"), terminated := .no }] ∧
    verdicts tryFinallyBody "resolve" "reject" = [.OK, .MultipleCallbacks] ∧
    findAllExecutionPaths returnFinallyBody =
      [{ statements := [.ofStmt (callTo "resolve"), .ofStmt (.returnS none),
                        .ofStmt (callTo "cleanup")],
         endNode := .ofStmt (callTo "cleanup"), terminated := .no }] := by
  refine ⟨fun tb hb fb cur => ?_, ?_, ?_, ?_⟩ <;>
    simp [analyzeTryStatement, findAllExecutionPaths, analyzeBlock, continuePaths,
          tryFinallyBody, returnFinallyBody, callTo, verdicts, verdictOf, verdictOfCount,
          countCallbacksInPath, countCallbacksInStatement, traverseStmt, traverseExpr,
          traverseExprList, traverseOptExpr, isTargetName]

/-- Claim C1, counterexample to the claim as stated: on
`try { resolve() } catch (e) { reject() } finally { resolve() }` the two
enumerated paths have sentinel counts 1 and 2 — the catch-path does not reach
count 2, so not both paths are `MultipleCallbacks`. -/
theorem C1_counterexample :
    (findAllExecutionPaths tryFinallyBody).map
      (fun path => countCallbacksInPath path "resolve" "reject") = [1, 2] := by
  simp [findAllExecutionPaths, analyzeBlock, continuePaths, analyzeTryStatement,
        tryFinallyBody, callTo, countCallbacksInPath, countCallbacksInStatement,
        traverseStmt, traverseExpr, traverseExprList, isTargetName]

/-- Claim C3: an `If` with no alternate yields the consequent's sub-paths plus
exactly one synthetic falls-through path seeded with the current prefix and
anchored at the `If` node itself; on `if (cond) { resolve() }` this gives
exactly two paths, classified `OK` and `NoCallback`. -/
theorem C3_missing_else :
    (∀ (test : Expr) (consequent : Stmt) (cur : List Node),
      analyzeIfStatement (.ifS test consequent none) cur =
        analyzeBlock (toStmtList consequent) cur
          ++ [{ statements := cur, endNode := .ofStmt (.ifS test consequent none),
                terminated := .no }]) ∧
    findAllExecutionPaths missingElseBody =
      [{ statements := [.ofStmt (callTo "resolve")], endNode := .ofStmt (callTo "resolve"),
         terminated := .no },
       { statements := [],
         endNode := .ofStmt (.ifS (.ident "cond") (.blockS [callTo "resolve"]) none),
         terminated := .no }] ∧
    verdicts missingElseBody "resolve" "reject" = [.OK, .NoCallback] := by
  refine ⟨fun test consequent cur => ?_, ?_, ?_⟩ <;>
    simp [analyzeIfStatement, findAllExecutionPaths, analyzeBlock, continuePaths,
          toStmtList, missingElseBody, callTo, verdicts, verdictOf, verdictOfCount,
          countCallbacksInPath, countCallbacksInStatement, traverseStmt, traverseExpr,
          traverseExprList, isTargetName]

/-- Claim C9: a `break` statement is handled by the catch-all branch of
`analyzeBlock`'s dispatch — it is pushed onto the working path like any plain
statement, the path keeps terminal falls-through, and the continuation rule
still applies; on `switch (x) { case 'a': resolve(); break; } reject();` the
case path contains the break and still receives `reject()`. -/
theorem C9_break_is_plain :
    (∀ (rest : List Stmt) (cur : List Node),
      analyzeBlock (.breakS :: rest) cur = analyzeBlock rest (cur ++ [.ofStmt .breakS])) ∧
    findAllExecutionPaths switchBreakBody =
      [{ statements := [.ofStmt (callTo "resolve"), .ofStmt .breakS, .ofStmt (callTo "reject")],
         endNode := .ofStmt (callTo "reject"), terminated := .no },
       { statements := [.ofStmt (callTo "reject")], endNode := .ofStmt (callTo "reject"),
         terminated := .no }] := by
  constructor
  · intro rest cur
    simp [analyzeBlock]
  · simp [findAllExecutionPaths, analyzeBlock, continuePaths, analyzeSwitchStatement,
          analyzeCaseList, isDefaultCase, switchBreakBody, callTo]

/-- Claim C10: a path closed by `Return` or `Throw` carries the terminating
statement itself among its statements, and a sentinel call inside the
return/throw argument contributes to the path's count; `return resolve(x)`
yields one path of count 1, classified `OK`. -/
theorem C10_terminator_is_counted :
    (∀ (arg : Option Expr) (rest : List Stmt) (cur : List Node),
      analyzeBlock (.returnS arg :: rest) cur =
        [{ statements := cur ++ [.ofStmt (.returnS arg)],
           endNode := .ofStmt (.returnS arg), terminated := .yes }]) ∧
    (∀ (arg : Expr) (rest : List Stmt) (cur : List Node),
      analyzeBlock (.throwS arg :: rest) cur =
        [{ statements := cur ++ [.ofStmt (.throwS arg)],
           endNode := .ofStmt (.throwS arg), terminated := .thrown }]) ∧
    (∀ (cur : List Node) (n endNode : Node) (tm : Terminated) (r j : String),
      countCallbacksInPath { statements := cur ++ [n], endNode := endNode, terminated := tm } r j =
        countCallbacksInPath { statements := cur, endNode := endNode, terminated := tm } r j
          + countCallbacksInStatement n r j) ∧
    findAllExecutionPaths returnResolveBody =
      [{ statements := [.ofStmt (.returnS (some (.call (.ident "resolve") [.otherE []])))],
         endNode := .ofStmt (.returnS (some (.call (.ident "resolve") [.otherE []]))),
         terminated := .yes }] ∧
    (findAllExecutionPaths returnResolveBody).map
      (fun path => countCallbacksInPath path "resolve" "reject") = [1] ∧
    verdicts returnResolveBody "resolve" "reject" = [.OK] := by
  refine ⟨fun arg rest cur => ?_, fun arg rest cur => ?_, fun cur n e tm r j => ?_, ?_, ?_, ?_⟩ <;>
    simp [analyzeBlock, countCallbacksInPath, List.foldl_append, findAllExecutionPaths,
          returnResolveBody, callTo, verdicts, verdictOf, verdictOfCount,
          countCallbacksInStatement, traverseStmt, traverseExpr, traverseExprList,
          traverseOptExpr, isTargetName]

theorem analyzeBlock_plain_front (pre rest : List Stmt) (cur : List Node)
    (hpre : ∀ s ∈ pre, isPlainStmt s = true) :
    analyzeBlock (pre ++ rest) cur = analyzeBlock rest (cur ++ pre.map .ofStmt) := by
  induction pre generalizing cur with
  | nil => simp
  | cons s pre ih =>
      rw [List.cons_append, analyzeBlock_plain_cons s _ cur (hpre s (by simp)),
          ih _ (fun t ht => hpre t (by simp [ht]))]
      simp

/-- Claim C2: a `Return` (or `Throw`) reached while enumerating a sequence
closes exactly one path, carrying the working prefix plus the terminator as
its last statement, and the statements after it are dropped entirely; on
`if (c) { resolve(); return; } reject();` the then-path stops at the return
with count 1 and the synthetic no-else path receives `reject()`, both `OK`. -/
theorem C2_return_closes_path (pre rest : List Stmt) (retArg : Option Expr) (throwArg : Expr)
    (cur : List Node) (hpre : ∀ s ∈ pre, isPlainStmt s = true) :
    (analyzeBlock (pre ++ .returnS retArg :: rest) cur =
      [{ statements := (cur ++ pre.map .ofStmt) ++ [.ofStmt (.returnS retArg)],
         endNode := .ofStmt (.returnS retArg), terminated := .yes }]) ∧
    (analyzeBlock (pre ++ .throwS throwArg :: rest) cur =
      [{ statements := (cur ++ pre.map .ofStmt) ++ [.ofStmt (.throwS throwArg)],
         endNode := .ofStmt (.throwS throwArg), terminated := .thrown }]) ∧
    findAllExecutionPaths earlyReturnBody =
      [{ statements := [.ofStmt (callTo "resolve"), .ofStmt (.returnS none)],
         endNode := .ofStmt (.returnS none), terminated := .yes },
       { statements := [.ofStmt (callTo "reject")], endNode := .ofStmt (callTo "reject"),
         terminated := .no }] ∧
    verdicts earlyReturnBody "resolve" "reject" = [.OK, .OK] ∧
    analyzeExecutionPaths earlyReturnBody "resolve" "reject" = [] := by
  refine ⟨?_, ?_, ?_, ?_, ?_⟩
  · rw [analyzeBlock_plain_front pre _ cur hpre, analyzeBlock_return_cons]
  · rw [analyzeBlock_plain_front pre _ cur hpre, analyzeBlock_throw_cons]
  all_goals
    simp [findAllExecutionPaths, analyzeBlock, continuePaths, analyzeIfStatement, toStmtList,
          earlyReturnBody, callTo, verdicts, verdictOf, verdictOfCount, analyzeExecutionPaths,
          pathIssue, countCallbacksInPath, countCallbacksInStatement, traverseStmt,
          traverseExpr, traverseExprList, traverseOptExpr, isTargetName]

/-- Witness for C2 at `pre = [resolve()]`, `rest = [reject()]`, a bare
`return`, `throw x`, and the empty prefix. -/
theorem C2_witness :
    (∀ s ∈ [callTo "resolve"], isPlainStmt s = true) ∧
    ((analyzeBlock ([callTo "resolve"] ++ .returnS none :: [callTo "reject"]) [] =
      [{ statements := ([] ++ [callTo "resolve"].map .ofStmt) ++ [.ofStmt (.returnS none)],
         endNode := .ofStmt (.returnS none), terminated := .yes }]) ∧
    (analyzeBlock ([callTo "resolve"] ++ .throwS (.ident "x") :: [callTo "reject"]) [] =
      [{ statements := ([] ++ [callTo "resolve"].map .ofStmt) ++ [.ofStmt (.throwS (.ident "x"))],
         endNode := .ofStmt (.throwS (.ident "x")), terminated := .thrown }]) ∧
    findAllExecutionPaths earlyReturnBody =
      [{ statements := [.ofStmt (callTo "resolve"), .ofStmt (.returnS none)],
         endNode := .ofStmt (.returnS none), terminated := .yes },
       { statements := [.ofStmt (callTo "reject")], endNode := .ofStmt (callTo "reject"),
         terminated := .no }] ∧
    verdicts earlyReturnBody "resolve" "reject" = [.OK, .OK] ∧
    analyzeExecutionPaths earlyReturnBody "resolve" "reject" = []) :=
  ⟨by simp [isPlainStmt, callTo],
   C2_return_closes_path [callTo "resolve"] [callTo "reject"] none (.ident "x") []
     (by simp [isPlainStmt, callTo])⟩

/-- Claim C4: the verdict of a path is a function of its sentinel count alone
(`0 → NoCallback`, `1 → OK` with no issue pushed, `> 1 → MultipleCallbacks`),
and on `resolve('x'); reject(new Error());` exactly one path is enumerated and
classified `MultipleCallbacks`. -/
theorem C4_verdict_from_count_only (path : ExecutionPath) (resolveParam rejectParam : String)
    (n : Nat) (hn : 1 < n) :
    verdictOf path resolveParam rejectParam
      = verdictOfCount (countCallbacksInPath path resolveParam rejectParam) ∧
    verdictOfCount 0 = .NoCallback ∧
    verdictOfCount 1 = .OK ∧
    verdictOfCount n = .MultipleCallbacks ∧
    (countCallbacksInPath path resolveParam rejectParam = 0 →
      pathIssue path resolveParam rejectParam
        = some { node := path.endNode, messageId := .noCallback }) ∧
    (countCallbacksInPath path resolveParam rejectParam = 1 →
      pathIssue path resolveParam rejectParam = none) ∧
    (1 < countCallbacksInPath path resolveParam rejectParam →
      pathIssue path resolveParam rejectParam
        = some { node := path.endNode, messageId := .multipleCallbacks }) ∧
    (findAllExecutionPaths doubleCallBody).length = 1 ∧
    verdicts doubleCallBody "resolve" "reject" = [.MultipleCallbacks] ∧
    analyzeExecutionPaths doubleCallBody "resolve" "reject" =
      [{ node := .ofStmt (callTo "reject"), messageId := .multipleCallbacks }] := by
  refine ⟨rfl, rfl, rfl, ?_, ?_, ?_, ?_, ?_, ?_, ?_⟩
  · rw [verdictOfCount, if_neg (by omega), if_pos hn]
  · intro h; simp [pathIssue, h]
  · intro h; simp [pathIssue, h]
  · intro h
    have h0 : countCallbacksInPath path resolveParam rejectParam ≠ 0 := by omega
    simp [pathIssue, h0, h]
  all_goals
    simp [findAllExecutionPaths, analyzeBlock, continuePaths, doubleCallBody, callTo,
          verdicts, verdictOf, verdictOfCount, analyzeExecutionPaths, pathIssue,
          countCallbacksInPath, countCallbacksInStatement, traverseStmt, traverseExpr,
          traverseExprList, isTargetName]

/-- Witness for C4 at a concrete path and `n = 2`. -/
theorem C4_witness :
    1 < 2 ∧
    (verdictOf { statements := [], endNode := .ofStmt .breakS, terminated := .no }
        "resolve" "reject"
      = verdictOfCount (countCallbacksInPath
          { statements := [], endNode := .ofStmt .breakS, terminated := .no }
          "resolve" "reject") ∧
    verdictOfCount 0 = .NoCallback ∧
    verdictOfCount 1 = .OK ∧
    verdictOfCount 2 = .MultipleCallbacks ∧
    (countCallbacksInPath { statements := [], endNode := .ofStmt .breakS, terminated := .no }
        "resolve" "reject" = 0 →
      pathIssue { statements := [], endNode := .ofStmt .breakS, terminated := .no }
          "resolve" "reject"
        = some { node := ExecutionPath.endNode
                  { statements := [], endNode := .ofStmt .breakS, terminated := .no },
                 messageId := .noCallback }) ∧
    (countCallbacksInPath { statements := [], endNode := .ofStmt .breakS, terminated := .no }
        "resolve" "reject" = 1 →
      pathIssue { statements := [], endNode := .ofStmt .breakS, terminated := .no }
        "resolve" "reject" = none) ∧
    (1 < countCallbacksInPath { statements := [], endNode := .ofStmt .breakS, terminated := .no }
        "resolve" "reject" →
      pathIssue { statements := [], endNode := .ofStmt .breakS, terminated := .no }
          "resolve" "reject"
        = some { node := ExecutionPath.endNode
                  { statements := [], endNode := .ofStmt .breakS, terminated := .no },
                 messageId := .multipleCallbacks }) ∧
    (findAllExecutionPaths doubleCallBody).length = 1 ∧
    verdicts doubleCallBody "resolve" "reject" = [.MultipleCallbacks] ∧
    analyzeExecutionPaths doubleCallBody "resolve" "reject" =
      [{ node := .ofStmt (callTo "reject"), messageId := .multipleCallbacks }]) :=
  ⟨by norm_num,
   C4_verdict_from_count_only
     { statements := [], endNode := .ofStmt .breakS, terminated := .no }
     "resolve" "reject" 2 (by norm_num)⟩

/-- Claim C5, counterexample to the claim as stated: a body that is an empty
block yields zero execution paths, not at least one — `analyzeBlock` only
closes the final falls-through path when the working path is non-empty. -/
theorem C5_counterexample : findAllExecutionPaths (.block []) = [] := by
  simp [findAllExecutionPaths, analyzeBlock]

/-- Claim C5 (amended): a non-block body yields exactly one trivial path, but
an empty block body yields zero paths (so N ≥ 1 fails there); each enumerated
path yields exactly one verdict. -/
theorem C5_path_and_verdict_counts :
    (∀ e : Expr, findAllExecutionPaths (.expr e) =
      [{ statements := [.ofExpr e], endNode := .ofExpr e, terminated := .no }]) ∧
    findAllExecutionPaths (.block []) = [] ∧
    (∀ (body : FnBody) (resolveParam rejectParam : String),
      (verdicts body resolveParam rejectParam).length = (findAllExecutionPaths body).length) := by
  refine ⟨fun e => rfl, by simp [findAllExecutionPaths, analyzeBlock], fun body r j => ?_⟩
  simp [verdicts]

/-- Claim C6: the sentinel counter counts every call expression whose callee
is a bare identifier equal to one of the two target names, and it descends
into nested function literals — a sentinel call inside
`setTimeout(function () { resolve() })` is counted. -/
theorem C6_nested_function_calls_counted :
    (∀ (params : List String) (body : List Stmt) (resolveParam rejectParam : String),
      traverseExpr resolveParam rejectParam (.funLit params body)
        = traverseStmtList resolveParam rejectParam body) ∧
    (∀ (callName : String) (args : List Expr) (resolveParam rejectParam : String),
      traverseExpr resolveParam rejectParam (.call (.ident callName) args)
        = (if isTargetName callName resolveParam rejectParam then 1 else 0)
          + traverseExprList resolveParam rejectParam args) ∧
    countCallbacksInStatement (.ofStmt nestedFunStmt) "resolve" "reject" = 1 := by
  refine ⟨fun p b r j => rfl, fun c a r j => ?_, ?_⟩
  · simp [traverseExpr]
  · simp [countCallbacksInStatement, nestedFunStmt, callTo, traverseStmt, traverseExpr,
          traverseExprList, traverseStmtList, isTargetName]

theorem analyzeBlock_nonBranching_length (stmts : List Stmt) :
    ∀ cur : List Node, stmts ≠ [] → (∀ s ∈ stmts, isNonBranching s = true) →
      (analyzeBlock stmts cur).length = 1 := by
  induction stmts with
  | nil => intro cur h0 _; exact absurd rfl h0
  | cons s rest ih =>
    intro cur _ h
    have hs := h s (by simp)
    have hrest : ∀ t ∈ rest, isNonBranching t = true := fun t ht => h t (by simp [ht])
    have hplain : isPlainStmt s = true → (analyzeBlock (s :: rest) cur).length = 1 := by
      intro hp
      rw [analyzeBlock_plain_cons s rest cur hp]
      rcases rest with _ | ⟨t, ts⟩
      · simp [analyzeBlock]
      · exact ih _ (by simp) hrest
    cases s with
    | ifS t c a => simp [isNonBranching] at hs
    | tryS b hd f => simp [isNonBranching] at hs
    | switchS cs => simp [isNonBranching] at hs
    | loopS hd b => simp [isNonBranching] at hs
    | returnS arg => simp [analyzeBlock_return_cons]
    | throwS arg => simp [analyzeBlock_throw_cons]
    | exprStmt e => exact hplain (by simp [isPlainStmt])
    | breakS => exact hplain (by simp [isPlainStmt])
    | blockS b => exact hplain (by simp [isPlainStmt])
    | otherS ch => exact hplain (by simp [isPlainStmt])

theorem analyzeCaseList_length (cases : List Case) (cur : List Node)
    (h : ∀ c ∈ cases, ∀ s ∈ consequentOf c, isNonBranching s = true) :
    (analyzeCaseList cases cur).length = cases.length := by
  induction cases with
  | nil => simp [analyzeCaseList]
  | cons c cs ih =>
    have hcs : ∀ d ∈ cs, ∀ s ∈ consequentOf d, isNonBranching s = true :=
      fun d hd => h d (by simp [hd])
    cases c with
    | mk t b =>
      rcases b with _ | ⟨s, ss⟩
      · simp [analyzeCaseList, ih hcs]
      · have hb : ∀ u ∈ s :: ss, isNonBranching u = true := h (.mk t (s :: ss)) (by simp)
        simp [analyzeCaseList, List.isEmpty_cons,
              analyzeBlock_nonBranching_length (s :: ss) cur (by simp) hb, ih hcs]
        omega

/-- Claim C7: a switch with no default case over N explicit cases yields one
path per case (a non-branching case body contributes exactly one path, an
empty case contributes one falls-through path anchored at that case) plus
exactly one implicit falls-through path anchored at the switch itself. -/
theorem C7_switch_without_default (cases : List Case) (cur : List Node)
    (hnd : cases.any isDefaultCase = false)
    (hnb : ∀ c ∈ cases, ∀ s ∈ consequentOf c, isNonBranching s = true) :
    analyzeSwitchStatement (.switchS cases) cur =
      analyzeCaseList cases cur
        ++ [{ statements := cur, endNode := .ofStmt (.switchS cases), terminated := .no }] ∧
    (analyzeSwitchStatement (.switchS cases) cur).length = cases.length + 1 ∧
    (∀ (t : Option Expr) (cs : List Case) (seed : List Node),
      analyzeCaseList (.mk t [] :: cs) seed =
        { statements := seed, endNode := .ofCase (.mk t []), terminated := .no }
          :: analyzeCaseList cs seed) := by
  have hsw : analyzeSwitchStatement (.switchS cases) cur =
      analyzeCaseList cases cur
        ++ [{ statements := cur, endNode := .ofStmt (.switchS cases), terminated := .no }] := by
    simp [analyzeSwitchStatement, hnd]
  refine ⟨hsw, ?_, fun t cs seed => by simp [analyzeCaseList]⟩
  rw [hsw]
  simp [analyzeCaseList_length cases cur hnb]

/-- Witness for C7 on `switch (x) { case 'a': resolve(); break; case 'b': }`
(two cases, no default). -/
theorem C7_witness :
    ([Case.mk (some (.ident "a")) [callTo "resolve", .breakS],
      Case.mk (some (.ident "b")) []].any isDefaultCase = false) ∧
    (∀ c ∈ [Case.mk (some (.ident "a")) [callTo "resolve", .breakS],
            Case.mk (some (.ident "b")) []],
      ∀ s ∈ consequentOf c, isNonBranching s = true) ∧
    (analyzeSwitchStatement
        (.switchS [Case.mk (some (.ident "a")) [callTo "resolve", .breakS],
                   Case.mk (some (.ident "b")) []]) []).length
      = [Case.mk (some (.ident "a")) [callTo "resolve", .breakS],
         Case.mk (some (.ident "b")) []].length + 1 :=
  ⟨by decide, by decide,
   (C7_switch_without_default
      [Case.mk (some (.ident "a")) [callTo "resolve", .breakS],
       Case.mk (some (.ident "b")) []] []
      (by decide) (by decide)).2.1⟩

theorem analyzeIfStatement_ifA (cur : List Node) :
    analyzeIfStatement ifA cur =
      [{ statements := cur ++ [.ofStmt (callTo "resolve")],
         endNode := .ofStmt (callTo "resolve"), terminated := .no },
       { statements := cur, endNode := .ofStmt ifA, terminated := .no }] := by
  simp [analyzeIfStatement, ifA, toStmtList, analyzeBlock, callTo]

theorem pathCount_nested_ifs (n : Nat) :
    ∀ cur : List Node, (analyzeBlock (List.replicate (n + 1) ifA) cur).length = 2 ^ (n + 1) := by
  induction n with
  | zero =>
    intro cur
    simp [List.replicate, analyzeBlock, continuePaths, analyzeIfStatement, ifA, toStmtList,
          callTo]
  | succ n ih =>
    intro cur
    rw [List.replicate_succ]
    have hstep : analyzeBlock (ifA :: List.replicate (n + 1) ifA) cur
        = continuePaths (List.replicate (n + 1) ifA) (analyzeIfStatement ifA cur) := by
      simp only [ifA]
      simp [analyzeBlock]
    rw [hstep, analyzeIfStatement_ifA]
    have hne : (List.replicate (n + 1) ifA).isEmpty = false := by
      simp [List.isEmpty_iff]
    simp [continuePaths, hne, ih]
    rw [pow_succ]
    omega

/-- Claim C8 (code evaluated at the failing input): the enumerator has no
path-limit guard — on a sequence of n + 1 if-statements it always returns the
complete set of 2 ^ (n + 1) paths as an ordinary result (1024 paths for ten
`if (c) { resolve() }` statements in a row), with no aborted outcome. -/
theorem C8_no_path_limit :
    (∀ n : Nat,
      (findAllExecutionPaths (.block (List.replicate (n + 1) ifA))).length = 2 ^ (n + 1)) ∧
    (findAllExecutionPaths (.block (List.replicate 10 ifA))).length = 1024 := by
  have h : ∀ n : Nat,
      (findAllExecutionPaths (.block (List.replicate (n + 1) ifA))).length = 2 ^ (n + 1) :=
    fun n => pathCount_nested_ifs n []
  exact ⟨h, by have h9 := h 9; norm_num at h9; exact h9⟩

end PromisePaths
